import Mathlib

/-!
Formal embedding of the variational-Bayes LDA implementation (`src/lda/vb.py`)
and proofs about its claimed properties.

Modelling conventions:
* machine floating-point numbers are modelled by exact rationals `ℚ`;
* the external special-function library (digamma `ψ`, trigamma `ψ'`,
  exponential, logarithm) is external to the program (spec §2) and is passed
  in as function parameters `psi tri expf logf : ℚ → ℚ`; where the source
  manipulates `log`-domain quantities that are only ever exponentiated, the
  embedding carries the exponentiated value directly (so the log-sum-exp
  normalisation of `update_phi` becomes division, and adding `log c` becomes
  multiplication by `c`);
* the bounded `for`/`while` loops of the source become structural recursion
  on an explicit fuel argument equal to the source's iteration bound;
* `numpy` row vectors of shape `(1, K)` become functions `Fin K → ℚ`,
  `V×K` matrices become `Fin V → Fin K → ℚ`.
-/

/-- Default `alpha_update_decay_factor` of `VariationalBayes.__init__` (0.9). -/
def alphaUpdateDecayFactor : ℚ := 9 / 10

/-- Default `alpha_maximum_decay` of `VariationalBayes.__init__` (10). -/
def alphaMaximumDecay : ℕ := 10

/-- Default `alpha_converge_threshold` of `VariationalBayes.__init__` (1e-6). -/
def alphaConvergeThreshold : ℚ := 1 / 1000000

/-- Default `alpha_maximum_iteration` of `VariationalBayes.__init__` (100). -/
def alphaMaximumIteration : ℕ := 100

/-- Default `gamma_converge_threshold` of `VariationalBayes.__init__` (1e-6). -/
def gammaConvergeThreshold : ℚ := 1 / 1000000

/-- Default `gamma_maximum_iteration` of `VariationalBayes.__init__` (100). -/
def gammaMaximumIteration : ℕ := 100

/-- Default `converge_threshold` of `VariationalBayes.__init__` (1e-5). -/
def convergeThreshold : ℚ := 1 / 100000

/-- Default `maximum_iteration` of `VariationalBayes.__init__` (100). -/
def maximumIteration : ℕ := 100

/-- Line 187 of `update_alpha`: the test `numpy.any(self._alpha >= step_size)`
that sets `singular_hessian`.  Note the orientation of the comparison exactly
as written in the source: it is `alpha >= step`, componentwise. -/
def singular_check {K : ℕ} (alpha step : Fin K → ℚ) : Prop :=
  ∃ k, alpha k ≥ step k

instance {K : ℕ} (alpha step : Fin K → ℚ) :
    Decidable (singular_check alpha step) :=
  Fintype.decidableExistsFintype

/-- Line 184 of `update_alpha`: the candidate Newton step
`step_size = decay_factor**decay * (gradient - c) / hessian`. -/
def alpha_step {K : ℕ} (g c h : Fin K → ℚ) (decay : ℕ) : Fin K → ℚ :=
  fun k => alphaUpdateDecayFactor ^ decay * (g k - c k) / h k

/-- Line 178 of `update_alpha`: `c = sum_g_h / (1.0 / z + sum_1_h)`, where
line 174 sets `sum_g_h = numpy.sum(alpha_gradient / alpha_hessian)` (a scalar)
and line 175 sets `sum_1_h = 1.0 / alpha_hessian` — despite its name, this is
the componentwise reciprocal of the Hessian diagonal with NO sum applied, so
`c` is a `(1, K)` vector, one value per component. -/
def alpha_c_code {K : ℕ} (g h : Fin K → ℚ) (z : ℚ) : Fin K → ℚ :=
  fun k => (∑ j, g j / h j) / (1 / z + 1 / h k)

/-- Scalar `c` as the spec describes it (spec §4.3 step 4, the diag+rank-one
Hessian inversion of the cited reference): `c = (Σ_k g_k/h_k) / (1/z + Σ_k 1/h_k)`.
This definition follows the spec's words, to be compared with `alpha_c_code`. -/
def alpha_c_spec {K : ℕ} (g h : Fin K → ℚ) (z : ℚ) : ℚ :=
  (∑ k, g k / h k) / (1 / z + ∑ k, 1 / h k)

/-- Lines 181–197 of `update_alpha`: the inner `while True` loop.  Given the
gradient `g`, the vector `c`, the Hessian diagonal `h` and the current `alpha`,
it recomputes the step with the current `decay`; if `singular_check` fires it
increments `decay` and, when `decay` exceeds `alpha_maximum_decay`, abandons
the iteration (returning `none`, i.e. `alpha_update` is left unchanged);
otherwise it returns the accepted candidate `alpha - step`.  The loop performs
at most `alphaMaximumDecay + 1` passes from `decay = 0` (each pass either exits
or increments `decay`, and the loop exits once `decay` passes the cap), so fuel
`alphaMaximumDecay + 2` never runs out; the fuel-0 branch mirrors the
cap-exceeded exit. -/
def alpha_inner {K : ℕ} (g c h alpha : Fin K → ℚ) :
    ℕ → ℕ → ℕ × Option (Fin K → ℚ)
  | 0, decay => (decay, none)
  | fuel + 1, decay =>
    let step := alpha_step g c h decay
    if singular_check alpha step then
      if alphaMaximumDecay < decay + 1 then (decay + 1, none)
      else alpha_inner g c h alpha fuel (decay + 1)
    else (decay, some fun k => alpha k - step k)

/-- Line 168 of `update_alpha`:
`alpha_gradient = D * (psi(alpha_sum) - psi(alpha)) + alpha_sufficient_statistics`,
with `psi` the external digamma function (`scipy.special.psi`). -/
def alpha_gradient (psi : ℚ → ℚ) (D : ℕ) {K : ℕ} (ss alpha : Fin K → ℚ) :
    Fin K → ℚ :=
  fun k => (D : ℚ) * (psi (∑ j, alpha j) - psi (alpha k)) + ss k

/-- Line 169 of `update_alpha`: `alpha_hessian = -D * polygamma(1, alpha)`,
with `tri` the external trigamma function (`scipy.special.polygamma(1, ·)`). -/
def alpha_hessian (tri : ℚ → ℚ) (D : ℕ) {K : ℕ} (alpha : Fin K → ℚ) :
    Fin K → ℚ :=
  fun k => -(D : ℚ) * tri (alpha k)

/-- Line 177 of `update_alpha`: `z = D * polygamma(1, alpha_sum)`. -/
def alpha_z (tri : ℚ → ℚ) (D : ℕ) {K : ℕ} (alpha : Fin K → ℚ) : ℚ :=
  (D : ℚ) * tri (∑ j, alpha j)

/-- Lines 167–197 of `update_alpha`: one Newton iteration body up to and
including the inner `while` loop — compute gradient, Hessian diagonal, `z`,
the vector `c`, then run the inner loop.  Returns the new `alpha_update`
(unchanged when the inner loop abandoned the step) and the new `decay`. -/
def alpha_newton_iter (psi tri : ℚ → ℚ) (D : ℕ) {K : ℕ} (ss : Fin K → ℚ)
    (alpha alphaUpd : Fin K → ℚ) (decay : ℕ) : (Fin K → ℚ) × ℕ :=
  match alpha_inner (alpha_gradient psi D ss alpha)
      (alpha_c_code (alpha_gradient psi D ss alpha) (alpha_hessian tri D alpha)
        (alpha_z tri D alpha))
      (alpha_hessian tri D alpha) alpha (alphaMaximumDecay + 2) decay with
  | (decay', res) => (res.getD alphaUpd, decay')

/-- Lines 163–205 of `update_alpha`: the outer Newton loop
`for alpha_iteration in xrange(self._alpha_maximum_iteration)`.  The state is
(current `self._alpha`, current `alpha_update`, current `decay`) — both
`alpha_update` (line 163) and `decay` (line 165) are initialised once, outside
the loop, and persist across Newton iterations.  `D` is `self._D` and `ss` is
`alpha_sufficient_statistics`.  The convergence test is
`numpy.mean(abs(alpha_update - self._alpha)) <= threshold` (lines 201–205),
applied after `self._alpha = alpha_update` (line 202); on the break the just
assigned `alpha_update` is the final `self._alpha`. -/
def alpha_newton (psi tri : ℚ → ℚ) (D : ℕ) {K : ℕ} (ss : Fin K → ℚ) :
    ℕ → (Fin K → ℚ) → (Fin K → ℚ) → ℕ → (Fin K → ℚ)
  | 0, alpha, _, _ => alpha
  | fuel + 1, alpha, alphaUpd, decay =>
    match alpha_newton_iter psi tri D ss alpha alphaUpd decay with
    | (u, decay') =>
      if (∑ k, |u k - alpha k|) / (K : ℚ) ≤ alphaConvergeThreshold then u
      else alpha_newton psi tri D ss fuel u u decay'

/-- Lines 160–207: `update_alpha(self, alpha_sufficient_statistics)`, run with
the default parameters, as a function of the current `self._alpha` (`alpha0`). -/
def update_alpha (psi tri : ℚ → ℚ) (D : ℕ) {K : ℕ}
    (ss alpha0 : Fin K → ℚ) : Fin K → ℚ :=
  alpha_newton psi tri D ss alphaMaximumIteration alpha0 alpha0 0

/-- Concrete digamma stand-in used to exercise `update_alpha` on explicit
inputs (the special-function library is external to the program). -/
def psi_c : ℚ → ℚ := fun x => if x = -4 then 13 / 3 else 0

/-- Concrete trigamma stand-in: positive and decreasing on the evaluation
points, like the real trigamma function. -/
def tri_c : ℚ → ℚ := fun x => if x = 2 ∨ x = -4 then 1 / 2 else 1

/-- Concrete sufficient-statistics input exercising `update_alpha` (the
routine is specified to keep `alpha` positive for every such input). -/
def ss_c : Fin 2 → ℚ := fun _ => -1

/-- Concrete strictly positive starting `alpha` for `update_alpha`. -/
def alpha0_c : Fin 2 → ℚ := fun _ => 1

/-- Entry `exp(beta[v,k] + psi(gamma[k]))` of line 133's `phi_contribution`,
carried in the exponentiated domain: `expBeta` is the entrywise exponential of
the stored log-matrix `self._beta`, and `expPsi x` stands for `exp(psi(x))`
with `psi` the external digamma function.  Real `exp` is strictly positive,
which the theorems below take as a hypothesis on `expBeta` and `expPsi`. -/
def e_mat {V K : ℕ} (expBeta : Fin V → Fin K → ℚ) (expPsi : ℚ → ℚ)
    (gamma : Fin K → ℚ) : Fin V → Fin K → ℚ :=
  fun v k => expBeta v k * expPsi (gamma k)

/-- Lines 134–136 of `update_phi`: the log-sum-exp normalisation
`phi_contribution -= log(sum(exp(phi_contribution), axis=1))` across topics,
in the exponentiated domain, where it is division by the row sum. -/
def phi_norm {V K : ℕ} (E : Fin V → Fin K → ℚ) (v : Fin V) (k : Fin K) : ℚ :=
  E v k / ∑ j, E v j

/-- Line 142 of `update_phi`:
`gamma_update = alpha + sum(exp(phi_contribution), axis=0)`, where
`phi_contribution` was count-weighted on line 140 (adding `log(count)` in log
domain is multiplying by the count here).  `terms` is the document's sparse
bag of words, a list of (term id, occurrence count) pairs — the
`self._data[doc_id]` frequency distribution of line 129. -/
def gamma_update {V K : ℕ} (expBeta : Fin V → Fin K → ℚ) (expPsi : ℚ → ℚ)
    (alpha : Fin K → ℚ) (terms : List (Fin V × ℕ)) (gamma : Fin K → ℚ) :
    Fin K → ℚ :=
  fun k => alpha k +
    (terms.map fun t => (t.2 : ℚ) * phi_norm (e_mat expBeta expPsi gamma) t.1 k).sum

/-- Line 151 of `update_phi`: the contribution added to `self._phi_table`,
namely the count-weighted `exp(phi_contribution)` at every occurring term's
row, zero elsewhere (term ids, being dictionary keys, are distinct). -/
def phi_table_contrib {V K : ℕ} (E : Fin V → Fin K → ℚ)
    (terms : List (Fin V × ℕ)) : Fin V → Fin K → ℚ :=
  fun v k => (terms.map fun t => if t.1 = v then (t.2 : ℚ) * phi_norm E v k else 0).sum

/-- Line 148 of `update_phi`: the `likelihood_phi` value
`numpy.dot((exp(phi) * (beta - phi)).transpose(), counts.transpose()).sum()`,
with `phi` the count-weighted `phi_contribution`.  `logf` stands for the
external natural logarithm: the code stores `beta` and `phi` in log domain,
so `beta[v,k] = logf (expBeta v k)` and `phi[v,k] = logf (count * phi_norm)`. -/
def likelihood_phi {V K : ℕ} (logf : ℚ → ℚ) (expBeta E : Fin V → Fin K → ℚ)
    (terms : List (Fin V × ℕ)) : ℚ :=
  (terms.map fun t => (t.2 : ℚ) *
    ∑ k, ((t.2 : ℚ) * phi_norm E t.1 k) *
      (logf (expBeta t.1 k) - logf ((t.2 : ℚ) * phi_norm E t.1 k))).sum

/-- Result of one `update_phi` call: the converged `gamma` row, the
contribution to `self._phi_table`, the returned `likelihood_phi`, and the
number of inner iterations run. -/
structure PhiResult (V K : ℕ) where
  gamma : Fin K → ℚ
  phiContrib : Fin V → Fin K → ℚ
  likelihood : ℚ
  iters : ℕ

/-- Lines 128–151 of `update_phi`: the inner loop
`for gamma_iteration in xrange(self._gamma_maximum_iteration)`.  Each pass
computes `phi` from the current `gamma` and the new `gamma`; the loop breaks
when `numpy.mean(abs(gamma_update - gamma)) <= threshold` (lines 143–146) or
when the iteration budget is spent, and the `phi` of the final pass feeds
lines 148–151.  `n` counts iterations already run; the fuel-0 base case is
unreachable from a positive initial budget. -/
def update_phi_loop {V K : ℕ} (expBeta : Fin V → Fin K → ℚ) (expPsi logf : ℚ → ℚ)
    (alpha : Fin K → ℚ) (terms : List (Fin V × ℕ)) :
    ℕ → (Fin K → ℚ) → ℕ → PhiResult V K
  | 0, gamma, n =>
    ⟨gamma, phi_table_contrib (e_mat expBeta expPsi gamma) terms,
      likelihood_phi logf expBeta (e_mat expBeta expPsi gamma) terms, n⟩
  | fuel + 1, gamma, n =>
    match gamma_update expBeta expPsi alpha terms gamma with
    | gamma' =>
      if (∑ k, |gamma' k - gamma k|) / (K : ℚ) ≤ gammaConvergeThreshold ∨ fuel = 0 then
        ⟨gamma', phi_table_contrib (e_mat expBeta expPsi gamma) terms,
          likelihood_phi logf expBeta (e_mat expBeta expPsi gamma) terms, n + 1⟩
      else update_phi_loop expBeta expPsi logf alpha terms fuel gamma' (n + 1)

/-- Lines 126–153: `update_phi(self, doc_id)` with the default parameters, as
a function of the current model state restricted to document `doc_id`:
`expBeta`, `alpha`, the document's term counts, and the incoming `gamma` row. -/
def update_phi {V K : ℕ} (expBeta : Fin V → Fin K → ℚ) (expPsi logf : ℚ → ℚ)
    (alpha : Fin K → ℚ) (terms : List (Fin V × ℕ)) (gamma0 : Fin K → ℚ) :
    PhiResult V K :=
  update_phi_loop expBeta expPsi logf alpha terms gammaMaximumIteration gamma0 0

/-- Line 100 of `inference`: `total_word_count = self._data[doc].N()`, the
total token count of the document. -/
def doc_N {V : ℕ} (terms : List (Fin V × ℕ)) : ℕ := (terms.map Prod.snd).sum

/-- Line 103 of `inference`: the per-document `gamma` re-initialisation
`self._gamma[[doc], :] = self._alpha + 1.0 * total_word_count / self._K`. -/
def doc_init_gamma {K : ℕ} (alpha : Fin K → ℚ) (n : ℕ) : Fin K → ℚ :=
  fun k => alpha k + (n : ℚ) / (K : ℚ)

/-- Lines 97–106 of `inference`: the per-document E-step pass, restricted to
its effect on the `gamma` matrix.  For each document of `docs` the loop body
first overwrites that document's `gamma` row with `doc_init_gamma` (line 103)
and then `update_phi` iterates that row to convergence (line 106); rows of
documents not in `docs` keep their incoming values. -/
def e_step_gamma {V K D : ℕ} (expBeta : Fin V → Fin K → ℚ) (expPsi logf : ℚ → ℚ)
    (alpha : Fin K → ℚ) (docTerms : Fin D → List (Fin V × ℕ))
    (docs : List (Fin D)) (gamma0 : Fin D → Fin K → ℚ) : Fin D → Fin K → ℚ :=
  docs.foldl
    (fun gm d => fun d' =>
      if d' = d then
        (update_phi expBeta expPsi logf alpha (docTerms d)
          (doc_init_gamma alpha (doc_N (docTerms d)))).gamma
      else gm d')
    gamma0

/-- Line 114 of `inference`: the column sums
`numpy.sum(self._phi_table, axis=0)`. -/
def col_sum {V K : ℕ} (phiTable : Fin V → Fin K → ℚ) (k : Fin K) : ℚ :=
  ∑ v, phiTable v k

/-- Lines 114–116 of `inference` (the M-step): `beta` is replaced by the
column-normalised `phi` table; line 116 then stores the entrywise logarithm,
so this definition carries the exponentiated matrix `exp(beta)`. -/
def m_step {V K : ℕ} (phiTable : Fin V → Fin K → ℚ) : Fin V → Fin K → ℚ :=
  fun v k => phiTable v k / col_sum phiTable k

/-- State touched by M-step lines 114–116: the accumulated `phi` table (only
read) and `exp(beta)` (fully replaced). -/
structure MStepState (V K : ℕ) where
  phiTable : Fin V → Fin K → ℚ
  expBeta : Fin V → Fin K → ℚ

/-- The M-step lines 114–116 as a transform on that state. -/
def m_step_state {V K : ℕ} (S : MStepState V K) : MStepState V K :=
  ⟨S.phiTable, m_step S.phiTable⟩

/-- Line 56 of `_initialize`:
`self._alpha = numpy.random.random((1, self._K)) / self._K`, as a function of
the drawn sample `r`; `numpy.random.random` draws each `r k` uniformly from
the half-open interval `[0, 1)`. -/
def init_alpha {K : ℕ} (r : Fin K → ℚ) : Fin K → ℚ :=
  fun k => r k / (K : ℚ)

/-- Line 219 of `learning`: the convergence break
`abs((new_likelihood - old_likelihood) / old_likelihood) < converge_threshold`.
The source divides directly; when `old = 0` (the initial value of line 213)
the IEEE quotient is non-finite (`inf`, or `nan` when `new = 0` too) and the
`<` comparison is false, so the break is never taken then.  The explicit
`old ≠ 0` conjunct encodes that float behaviour, which exact division on `ℚ`
(where `x / 0 = 0`) would otherwise misrepresent. -/
def rel_change_break (old new : ℚ) : Prop :=
  old ≠ 0 ∧ |(new - old) / old| < convergeThreshold

instance (old new : ℚ) : Decidable (rel_change_break old new) :=
  instDecidableAnd

/-- Lines 213–222 of `learning`: the outer EM loop, abstracted over the
sequence `L i` of `inference()` return values, recording the `old_likelihood`
value against which each performed convergence check divides.  The check runs
on every iteration, including the first, where `old_likelihood` is still the
initial 0.0 of line 213. -/
def learning_olds (L : ℕ → ℚ) : ℕ → ℕ → ℚ → List ℚ
  | 0, _, _ => []
  | fuel + 1, i, old =>
    old :: (if rel_change_break old (L i) then []
            else learning_olds L fuel (i + 1) (L i))

/-- Lines 209–222: `learning(iteration)` for a positive iteration budget,
restricted to the previous-ELBO values its convergence checks divide by. -/
def learning_checks (L : ℕ → ℚ) (iter : ℕ) : List ℚ :=
  learning_olds L iter 0 0

/-! ## Theorems -/

/-- Unfolding equation for one pass of the inner `while` loop of
`update_alpha`. -/
theorem alpha_inner_succ {K : ℕ} (g c h alpha : Fin K → ℚ) (fuel decay : ℕ) :
    alpha_inner g c h alpha (fuel + 1) decay =
      if singular_check alpha (alpha_step g c h decay) then
        if alphaMaximumDecay < decay + 1 then (decay + 1, none)
        else alpha_inner g c h alpha fuel (decay + 1)
      else (decay, some fun k => alpha k - alpha_step g c h decay k) := rfl

/-- Unfolding equation for one Newton iteration of `update_alpha`. -/
theorem alpha_newton_succ (psi tri : ℚ → ℚ) (D : ℕ) {K : ℕ} (ss : Fin K → ℚ)
    (fuel : ℕ) (alpha alphaUpd : Fin K → ℚ) (decay : ℕ) :
    alpha_newton psi tri D ss (fuel + 1) alpha alphaUpd decay =
      match alpha_newton_iter psi tri D ss alpha alphaUpd decay with
      | (u, decay') =>
        if (∑ k, |u k - alpha k|) / (K : ℚ) ≤ alphaConvergeThreshold then u
        else alpha_newton psi tri D ss fuel u u decay' := rfl

/-- When the `singular_hessian` test of line 187 fires at every decay level up
to the cap, the inner loop of `update_alpha` exhausts its decay budget and
abandons the Newton iteration (`alpha_update` left unchanged). -/
theorem alpha_inner_all_singular {K : ℕ} (g c h alpha : Fin K → ℚ)
    (hs : ∀ d, d ≤ 10 → singular_check alpha (alpha_step g c h d)) :
    ∀ n, n ≤ 10 → alpha_inner g c h alpha (n + 2) (10 - n) = (11, none) := by
  intro n
  induction n with
  | zero =>
    intro _
    rw [alpha_inner_succ, if_pos (hs 10 le_rfl),
      if_pos (by norm_num [alphaMaximumDecay])]
  | succ m ih =>
    intro hm
    rw [show m + 1 + 2 = (m + 2) + 1 from rfl, alpha_inner_succ,
      if_pos (hs (10 - (m + 1)) (by omega)),
      if_neg (by simp only [alphaMaximumDecay]; omega),
      show 10 - (m + 1) + 1 = 10 - m from by omega]
    exact ih (by omega)

/-- Gradient of the first Newton iteration on the concrete `update_alpha`
run: with `alpha = (1,1)`, `alpha_sum = 2`, `psi_c 2 = psi_c 1 = 0` and
`ss = (-1,-1)` the gradient is `(-1,-1)`. -/
theorem c1_gradient_1 : alpha_gradient psi_c 1 ss_c alpha0_c = fun _ => -1 := by
  funext k
  norm_num [alpha_gradient, ss_c, alpha0_c, psi_c, Fin.sum_univ_two]

/-- Hessian diagonal of the first Newton iteration: `-tri_c 1 = -1`. -/
theorem c1_hessian_1 : alpha_hessian tri_c 1 alpha0_c = fun _ => -1 := by
  funext k
  norm_num [alpha_hessian, alpha0_c, tri_c, Fin.sum_univ_two]

/-- The `z` value of the first Newton iteration: `tri_c 2 = 1/2`. -/
theorem c1_z_1 : alpha_z tri_c 1 alpha0_c = 1/2 := by
  norm_num [alpha_z, alpha0_c, tri_c, Fin.sum_univ_two]

/-- The `c` vector of the first Newton iteration evaluates to `(2,2)`. -/
theorem c1_c_1 : alpha_c_code (fun _ : Fin 2 => (-1 : ℚ)) (fun _ => -1) (1/2) =
    fun _ => 2 := by
  funext k
  norm_num [alpha_c_code, Fin.sum_univ_two]

/-- First Newton iteration, inner loop: the step is `(3,3)`, strictly larger
than `alpha = (1,1)` in every component, so the candidate `alpha - step`
is `(-2,-2)` — yet line 187's inverted test does NOT fire and the all-negative
candidate is accepted at decay 0. -/
theorem c1_inner_1 : alpha_inner (fun _ : Fin 2 => (-1 : ℚ)) (fun _ => 2) (fun _ => -1)
    alpha0_c 12 0 = (0, some fun _ => -2) := by
  rw [show (12 : ℕ) = 11 + 1 from rfl, alpha_inner_succ]
  rw [if_neg (by norm_num [singular_check, alpha_step, alpha0_c, alphaUpdateDecayFactor])]
  refine congrArg _ (congrArg _ ?_)
  funext k
  norm_num [alpha_step, alpha0_c, alphaUpdateDecayFactor]

/-- First Newton iteration of the concrete run: `alpha` moves from `(1,1)`
to `(-2,-2)` with `decay` still 0. -/
theorem c1_iter_1 : alpha_newton_iter psi_c tri_c 1 ss_c alpha0_c alpha0_c 0 =
    (fun _ => -2, 0) := by
  rw [alpha_newton_iter, c1_gradient_1, c1_hessian_1, c1_z_1, c1_c_1]
  rw [show alphaMaximumDecay + 2 = 12 from rfl, c1_inner_1]
  rfl

/-- Gradient of the second Newton iteration (now at `alpha = (-2,-2)`,
`alpha_sum = -4`): `psi_c (-4) - psi_c (-2) - 1 = 10/3` per component. -/
theorem c1_gradient_2 : alpha_gradient psi_c 1 ss_c (fun _ : Fin 2 => (-2 : ℚ)) =
    fun _ => 10/3 := by
  funext k
  norm_num [alpha_gradient, ss_c, psi_c, Fin.sum_univ_two]

/-- Hessian diagonal of the second Newton iteration: `-tri_c (-2) = -1`. -/
theorem c1_hessian_2 : alpha_hessian tri_c 1 (fun _ : Fin 2 => (-2 : ℚ)) =
    fun _ => -1 := by
  funext k
  norm_num [alpha_hessian, tri_c, Fin.sum_univ_two]

/-- The `z` value of the second Newton iteration: `tri_c (-4) = 1/2`. -/
theorem c1_z_2 : alpha_z tri_c 1 (fun _ : Fin 2 => (-2 : ℚ)) = 1/2 := by
  norm_num [alpha_z, tri_c, Fin.sum_univ_two]

/-- The `c` vector of the second Newton iteration evaluates to `(-20/3,-20/3)`. -/
theorem c1_c_2 : alpha_c_code (fun _ : Fin 2 => (10/3 : ℚ)) (fun _ => -1) (1/2) =
    fun _ => -20/3 := by
  funext k
  norm_num [alpha_c_code, Fin.sum_univ_two]

/-- In the second Newton iteration every decay level yields a large negative
step (`-10 * (9/10)^d ≤ -2`), so the inverted test fires at every level. -/
theorem c1_sing_2 (d : ℕ) (hd : d ≤ 10) :
    singular_check (fun _ : Fin 2 => (-2 : ℚ))
      (alpha_step (fun _ => 10/3) (fun _ => -20/3) (fun _ => -1) d) := by
  refine ⟨0, ?_⟩
  have h10 : ((9 : ℚ)/10) ^ 10 ≤ (9/10) ^ d :=
    pow_le_pow_of_le_one (by norm_num) (by norm_num) hd
  have h15 : (1/5 : ℚ) ≤ (9/10) ^ d := le_trans (by norm_num) h10
  simp only [alpha_step, alphaUpdateDecayFactor]
  rw [ge_iff_le, div_le_iff_of_neg (by norm_num : (-1 : ℚ) < 0)]
  nlinarith [h15]

/-- Second Newton iteration, inner loop: the decay budget is exhausted and
the iteration is abandoned. -/
theorem c1_inner_2 : alpha_inner (fun _ : Fin 2 => (10/3 : ℚ)) (fun _ => -20/3)
    (fun _ => -1) (fun _ => -2) 12 0 = (11, none) := by
  exact alpha_inner_all_singular _ _ _ _ c1_sing_2 10 le_rfl

/-- Second Newton iteration of the concrete run: `alpha_update` is left at
`(-2,-2)` and `decay` ends at 11. -/
theorem c1_iter_2 : alpha_newton_iter psi_c tri_c 1 ss_c (fun _ : Fin 2 => (-2 : ℚ))
    (fun _ => -2) 0 = (fun _ => -2, 11) := by
  rw [alpha_newton_iter, c1_gradient_2, c1_hessian_2, c1_z_2, c1_c_2]
  rw [show alphaMaximumDecay + 2 = 12 from rfl, c1_inner_2]
  rfl

/-- After the first Newton iteration the mean change is 3, above threshold, so
the loop continues with `alpha = (-2,-2)`. -/
theorem c1_newton_step_1 : alpha_newton psi_c tri_c 1 ss_c (99 + 1) alpha0_c alpha0_c 0 =
    alpha_newton psi_c tri_c 1 ss_c 99 (fun _ => -2) (fun _ => -2) 0 := by
  rw [alpha_newton_succ, c1_iter_1]
  exact if_neg (by norm_num [alpha0_c, alphaConvergeThreshold, Fin.sum_univ_two])

/-- After the second Newton iteration the mean change is 0, so the loop breaks
and returns `(-2,-2)`. -/
theorem c1_newton_step_2 : alpha_newton psi_c tri_c 1 ss_c (98 + 1)
    (fun _ : Fin 2 => (-2 : ℚ)) (fun _ => -2) 0 = fun _ => -2 := by
  rw [alpha_newton_succ, c1_iter_2]
  exact if_pos (by norm_num [alphaConvergeThreshold, Fin.sum_univ_two])

/-- The complete concrete `update_alpha` run returns `(-2,-2)`. -/
theorem c1_update_alpha_eval : update_alpha psi_c tri_c 1 ss_c alpha0_c = fun _ => -2 := by
  rw [update_alpha, show alphaMaximumIteration = 99 + 1 from rfl, c1_newton_step_1,
    show (99 : ℕ) = 98 + 1 from rfl, c1_newton_step_2]

/-- Claim C1: for every call to `update_alpha`, if every component of `alpha`
is strictly positive before the call then every component is strictly positive
after it returns, for every sufficient-statistics input.  REFUTED on the code:
starting from the strictly positive `alpha = (1,1)` with `D = 1` and
sufficient statistics `(-1,-1)` (digamma/trigamma stand-ins `psi_c`, `tri_c`),
`update_alpha` returns `(-2,-2)`, which is negative in every component.  The
root cause is the inverted comparison on line 187 (`self._alpha >= step_size`
instead of `step_size >= self._alpha`), which accepts exactly those Newton
candidates that are non-positive in every component. -/
theorem c1_alpha_positivity_violated :
    (0 < alpha0_c 0 ∧ 0 < alpha0_c 1) ∧
      update_alpha psi_c tri_c 1 ss_c alpha0_c 0 < 0 ∧
      update_alpha psi_c tri_c 1 ss_c alpha0_c 1 < 0 := by
  refine ⟨⟨by norm_num [alpha0_c], by norm_num [alpha0_c]⟩, ?_, ?_⟩ <;>
    rw [c1_update_alpha_eval] <;> norm_num

/-- Claim C2: the decay/backoff branch of `update_alpha` is taken exactly when
the candidate update would be non-positive somewhere (`step_k ≥ alpha_k` for
some `k`).  REFUTED on the code: with `gradient = (-1)`, `c = (0)`,
`hessian = (-1)` and `alpha = (2)` the step is `(9/10)^decay ≤ 1`, the
candidate `alpha - step ≥ 1` is strictly positive at every decay level, yet
line 187's test `alpha >= step` fires every time and the inner loop abandons
the iteration (`none`); conversely with `gradient = (-3)` the step is `3 ≥
alpha = 1`, the candidate is `-2 ≤ 0`, yet the test does not fire and the
all-negative candidate is accepted. -/
theorem c2_decay_branch_inverted :
    ((alpha_inner (fun _ : Fin 1 => (-1 : ℚ)) (fun _ => 0) (fun _ => -1)
        (fun _ => 2) 12 0).2 = none ∧
      (0 : ℚ) < 2 - alpha_step (fun _ : Fin 1 => (-1 : ℚ)) (fun _ => 0) (fun _ => -1) 0 0) ∧
    ((alpha_inner (fun _ : Fin 1 => (-3 : ℚ)) (fun _ => 0) (fun _ => -1)
        (fun _ => 1) 12 0).2 = some (fun _ => -2) ∧
      alpha_step (fun _ : Fin 1 => (-3 : ℚ)) (fun _ => 0) (fun _ => -1) 0 0 ≥ 1 ∧
      (1 : ℚ) - alpha_step (fun _ : Fin 1 => (-3 : ℚ)) (fun _ => 0) (fun _ => -1) 0 0 ≤ 0) := by
  refine ⟨⟨?_, ?_⟩, ?_, ?_, ?_⟩
  · have hs : ∀ d, d ≤ 10 → singular_check (fun _ : Fin 1 => (2 : ℚ))
        (alpha_step (fun _ => -1) (fun _ => 0) (fun _ => -1) d) := by
      intro d _
      refine ⟨0, ?_⟩
      have h1 : ((9 : ℚ)/10) ^ d ≤ 1 := pow_le_one₀ (by norm_num) (by norm_num)
      have h0 : (0 : ℚ) ≤ ((9 : ℚ)/10) ^ d := pow_nonneg (by norm_num) d
      simp only [alpha_step, alphaUpdateDecayFactor]
      rw [ge_iff_le, div_le_iff_of_neg (by norm_num : (-1 : ℚ) < 0)]
      nlinarith
    have := alpha_inner_all_singular _ _ _ _ hs 10 le_rfl
    rw [show (10 : ℕ) + 2 = 12 from rfl, show (10 : ℕ) - 10 = 0 from rfl] at this
    rw [this]
  · norm_num [alpha_step, alphaUpdateDecayFactor]
  · rw [show (12 : ℕ) = 11 + 1 from rfl, alpha_inner_succ,
      if_neg (by norm_num [singular_check, alpha_step, alphaUpdateDecayFactor])]
    simp only [Option.some.injEq]
    funext k
    norm_num [alpha_step, alphaUpdateDecayFactor]
  · norm_num [alpha_step, alphaUpdateDecayFactor]
  · norm_num [alpha_step, alphaUpdateDecayFactor]

/-- Claim C3: the quantity `c` of each Newton iteration is the scalar
`(Σ_k g_k/h_k) / (1/z + Σ_k 1/h_k)`.  REFUTED on the code: line 175 computes
`sum_1_h = 1.0 / alpha_hessian` without the sum its name announces, so the
code's `c` is the vector `c_k = (Σ_j g_j/h_j) / (1/z + 1/h_k)`; at
`g = (1,1)`, `h = (-1,-2)`, `z = 1/2` the code's `c` is `(-3/2, -1)` — not
equal to the spec's scalar `-3`, and not even constant across components. -/
theorem c3_c_vector_not_scalar :
    alpha_c_code (K := 2) ![1, 1] ![-1, -2] (1/2) 0 ≠
      alpha_c_spec (K := 2) ![1, 1] ![-1, -2] (1/2) ∧
    alpha_c_code (K := 2) ![1, 1] ![-1, -2] (1/2) 0 ≠
      alpha_c_code (K := 2) ![1, 1] ![-1, -2] (1/2) 1 := by
  norm_num [alpha_c_code, alpha_c_spec, Fin.sum_univ_two]

/-- Unfolding equation for one pass of the inner loop of `update_phi`. -/
theorem update_phi_loop_succ {V K : ℕ} (expBeta : Fin V → Fin K → ℚ)
    (expPsi logf : ℚ → ℚ) (alpha : Fin K → ℚ) (terms : List (Fin V × ℕ))
    (fuel : ℕ) (gamma : Fin K → ℚ) (n : ℕ) :
    update_phi_loop expBeta expPsi logf alpha terms (fuel + 1) gamma n =
      match gamma_update expBeta expPsi alpha terms gamma with
      | gamma' =>
        if (∑ k, |gamma' k - gamma k|) / (K : ℚ) ≤ gammaConvergeThreshold ∨ fuel = 0 then
          ⟨gamma', phi_table_contrib (e_mat expBeta expPsi gamma) terms,
            likelihood_phi logf expBeta (e_mat expBeta expPsi gamma) terms, n + 1⟩
        else update_phi_loop expBeta expPsi logf alpha terms fuel gamma' (n + 1) := rfl

/-- Claim C4, counterexample: the claim says the first outer EM iteration's
relative-change check is skipped or special-cased so that no division against
a zero previous ELBO occurs.  On the code the check is NOT skipped: running
`learning` (here with every `inference()` returning 1) performs a check whose
divisor `old_likelihood` is the initial 0.0 — the value 0 occurs among the
divisors actually used. -/
theorem c4_division_by_zero_occurs :
    (0 : ℚ) ∈ learning_checks (fun _ => 1) maximumIteration := by
  rw [learning_checks, show maximumIteration = 99 + 1 from rfl]
  exact List.mem_cons_self _ _

/-- Claim C4, amended: on the very first outer iteration `learning` performs
the relative-change check with previous ELBO 0.0 (no skip or special case
exists); the division by zero yields a non-finite float quotient, so the
comparison is false and the loop does not break on the first iteration — the
intended outcome is reached through IEEE semantics, not through code. -/
theorem c4_first_check_against_zero (L : ℕ → ℚ) (iter : ℕ) (h : 0 < iter) :
    (learning_checks L iter).head? = some 0 ∧ ¬ rel_change_break 0 (L 0) := by
  obtain ⟨m, rfl⟩ : ∃ m, iter = m + 1 := ⟨iter - 1, by omega⟩
  exact ⟨rfl, by simp [rel_change_break]⟩

/-- Witness for `c4_first_check_against_zero` at `L = const 1`, `iter = 2`. -/
theorem c4_first_check_against_zero_witness :
    (learning_checks (fun _ => 1) 2).head? = some 0 ∧ ¬ rel_change_break 0 1 :=
  c4_first_check_against_zero (fun _ => 1) 2 (by norm_num)

/-- Claim C5: immediately after every M-step, every column of `exp(beta)`
sums to 1 over the vocabulary, provided each column of the accumulated `phi`
table has a positive sum.  CONFIRMED. -/
theorem c5_m_step_columns_sum_one {V K : ℕ} (phiTable : Fin V → Fin K → ℚ)
    (hpos : ∀ k, 0 < col_sum phiTable k) :
    ∀ k, ∑ v, m_step phiTable v k = 1 := by
  intro k
  simp only [m_step]
  rw [← Finset.sum_div]
  exact div_self (ne_of_gt (hpos k))

/-- Witness for `c5_m_step_columns_sum_one` on the all-ones 1×1 table. -/
theorem c5_m_step_columns_sum_one_witness :
    (0 : ℚ) < col_sum (fun _ _ => 1 : Fin 1 → Fin 1 → ℚ) 0 ∧
      ∑ v, m_step (fun _ _ => 1 : Fin 1 → Fin 1 → ℚ) v 0 = 1 :=
  ⟨by norm_num [col_sum, Fin.sum_univ_one],
    c5_m_step_columns_sum_one _ (fun k => by norm_num [col_sum, Fin.sum_univ_one]) 0⟩

/-- Claim C6: within every E-step inner iteration, after the log-sum-exp
normalisation and before count-weighting, the per-term topic weights sum to 1
over the topics, for every occurring term.  CONFIRMED (the positivity of the
exponentiated inputs, automatic for the real `exp`, is the hypothesis). -/
theorem c6_phi_rows_sum_one {V K : ℕ} (expBeta : Fin V → Fin K → ℚ)
    (expPsi : ℚ → ℚ) (gamma : Fin K → ℚ) (v : Fin V) (hK : 0 < K)
    (hpos : ∀ v k, 0 < e_mat expBeta expPsi gamma v k) :
    ∑ k, phi_norm (e_mat expBeta expPsi gamma) v k = 1 := by
  have hne : Nonempty (Fin K) := Fin.pos_iff_nonempty.mp hK
  have hsum : 0 < ∑ j, e_mat expBeta expPsi gamma v j :=
    Finset.sum_pos (fun j _ => hpos v j) Finset.univ_nonempty
  simp only [phi_norm]
  rw [← Finset.sum_div]
  exact div_self (ne_of_gt hsum)

/-- Witness for `c6_phi_rows_sum_one` at the all-ones 1×1 instance. -/
theorem c6_phi_rows_sum_one_witness :
    (0 : ℚ) < e_mat (fun _ _ => 1 : Fin 1 → Fin 1 → ℚ) (fun _ => 1) (fun _ => 1) 0 0 ∧
      ∑ k, phi_norm (e_mat (fun _ _ => 1 : Fin 1 → Fin 1 → ℚ) (fun _ => 1) (fun _ => 1)) 0 k = 1 := by
  exact ⟨by norm_num [e_mat],
    c6_phi_rows_sum_one _ _ _ 0 (by norm_num) (fun v k => by norm_num [e_mat])⟩

/-- The E-step pass writes, for every processed document, the `gamma` row
obtained by `update_phi` from the freshly reset row `doc_init_gamma`; rows of
unprocessed documents keep their incoming value. -/
theorem e_step_gamma_eq {V K D : ℕ} (expBeta : Fin V → Fin K → ℚ)
    (expPsi logf : ℚ → ℚ) (alpha : Fin K → ℚ)
    (docTerms : Fin D → List (Fin V × ℕ)) :
    ∀ (docs : List (Fin D)) (gamma0 : Fin D → Fin K → ℚ) (d : Fin D),
      e_step_gamma expBeta expPsi logf alpha docTerms docs gamma0 d =
        if d ∈ docs then
          (update_phi expBeta expPsi logf alpha (docTerms d)
            (doc_init_gamma alpha (doc_N (docTerms d)))).gamma
        else gamma0 d := by
  intro docs
  induction docs with
  | nil => intro gamma0 d; simp [e_step_gamma]
  | cons a rest ih =>
    intro gamma0 d
    have hstep : e_step_gamma expBeta expPsi logf alpha docTerms (a :: rest) gamma0 =
        e_step_gamma expBeta expPsi logf alpha docTerms rest
          (fun d' =>
            if d' = a then
              (update_phi expBeta expPsi logf alpha (docTerms a)
                (doc_init_gamma alpha (doc_N (docTerms a)))).gamma
            else gamma0 d') := rfl
    rw [hstep, ih]
    by_cases hd : d ∈ rest
    · simp [hd, List.mem_cons]
    · by_cases hda : d = a
      · subst hda; simp [hd, List.mem_cons]
      · simp [hd, hda, List.mem_cons]

/-- Claim C7: at the start of every outer EM iteration, every processed
document's `gamma` row is reset to `alpha + N_d / K` before `update_phi` runs,
discarding the previous iteration's `gamma` (no warm start).  CONFIRMED: the
converged row equals `update_phi` started from `alpha + N_d / K`, and the
result is independent of the incoming `gamma` matrix. -/
theorem c7_gamma_reset_no_warm_start {V K D : ℕ} (expBeta : Fin V → Fin K → ℚ)
    (expPsi logf : ℚ → ℚ) (alpha : Fin K → ℚ)
    (docTerms : Fin D → List (Fin V × ℕ)) (docs : List (Fin D))
    (gamma0 gamma1 : Fin D → Fin K → ℚ) (d : Fin D) (hd : d ∈ docs) :
    e_step_gamma expBeta expPsi logf alpha docTerms docs gamma0 d =
      (update_phi expBeta expPsi logf alpha (docTerms d)
        (fun k => alpha k + (doc_N (docTerms d) : ℚ) / (K : ℚ))).gamma ∧
    e_step_gamma expBeta expPsi logf alpha docTerms docs gamma0 d =
      e_step_gamma expBeta expPsi logf alpha docTerms docs gamma1 d := by
  have h0 := e_step_gamma_eq expBeta expPsi logf alpha docTerms docs gamma0 d
  have h1 := e_step_gamma_eq expBeta expPsi logf alpha docTerms docs gamma1 d
  rw [if_pos hd] at h0 h1
  exact ⟨h0, h0.trans h1.symm⟩

/-- Witness for `c7_gamma_reset_no_warm_start` on a one-document corpus with
two different incoming `gamma` matrices (constant 5 and constant 7). -/
theorem c7_gamma_reset_no_warm_start_witness :
    e_step_gamma (fun _ _ => 1 : Fin 1 → Fin 1 → ℚ) (fun _ => 1) (fun _ => 1)
        (fun _ => 1) (fun _ => []) [(0 : Fin 1)] (fun _ _ => 5) 0 =
      (update_phi (fun _ _ => 1 : Fin 1 → Fin 1 → ℚ) (fun _ => 1) (fun _ => 1)
        (fun _ => 1) ((fun _ : Fin 1 => ([] : List (Fin 1 × ℕ))) 0)
        (fun k => (fun _ : Fin 1 => (1:ℚ)) k +
          ((doc_N ((fun _ : Fin 1 => ([] : List (Fin 1 × ℕ))) 0) : ℚ)) / ((1:ℕ) : ℚ))).gamma ∧
    e_step_gamma (fun _ _ => 1 : Fin 1 → Fin 1 → ℚ) (fun _ => 1) (fun _ => 1)
        (fun _ => 1) (fun _ => []) [(0 : Fin 1)] (fun _ _ => 5) 0 =
      e_step_gamma (fun _ _ => 1 : Fin 1 → Fin 1 → ℚ) (fun _ => 1) (fun _ => 1)
        (fun _ => 1) (fun _ => []) [(0 : Fin 1)] (fun _ _ => 7) 0 :=
  c7_gamma_reset_no_warm_start _ _ _ _ _ [(0 : Fin 1)] (fun _ _ => 5) (fun _ _ => 7) 0 (by simp)

/-- Claim C8, counterexample: the claim says every component of the freshly
initialised `alpha` is strictly positive for every outcome of the random
draw; but `numpy.random.random` draws from the half-open interval `[0, 1)`,
and the legal outcome 0 yields the component `0 / K = 0`, which is not
strictly positive. -/
theorem c8_zero_draw_gives_zero_alpha :
    ((0 : ℚ) ≤ 0 ∧ (0 : ℚ) < 1) ∧
      init_alpha (fun _ : Fin 2 => (0 : ℚ)) 0 = 0 := by
  norm_num [init_alpha]

/-- Claim C8, amended: every component of the freshly initialised `alpha` is
strictly positive provided every component of the underlying uniform draw is
nonzero (which holds almost surely, but not for every outcome of the
half-open-interval draw). -/
theorem c8_alpha_positive_of_positive_draw {K : ℕ} (r : Fin K → ℚ)
    (hr : ∀ k, 0 < r k) : ∀ k, 0 < init_alpha r k := by
  intro k
  exact div_pos (hr k) (by exact_mod_cast k.pos)

/-- Witness for `c8_alpha_positive_of_positive_draw` at the draw `(1/2, 1/2)`. -/
theorem c8_alpha_positive_of_positive_draw_witness :
    (0 : ℚ) < (fun _ : Fin 2 => (1/2 : ℚ)) 0 ∧
      0 < init_alpha (fun _ : Fin 2 => (1/2 : ℚ)) 0 :=
  ⟨by norm_num, c8_alpha_positive_of_positive_draw _ (fun k => by norm_num) 0⟩

/-- Claim C9: `update_phi` on a document with no occurring terms does not
fail — starting from the inference-reset row `alpha + 0/K = alpha` it
converges on the first inner iteration, leaves `gamma` at `alpha`, and
contributes zero to the `phi` table and to the `phi` ELBO term.  CONFIRMED. -/
theorem c9_empty_document_no_op {V K : ℕ} (expBeta : Fin V → Fin K → ℚ)
    (expPsi logf : ℚ → ℚ) (alpha : Fin K → ℚ) :
    update_phi expBeta expPsi logf alpha ([] : List (Fin V × ℕ)) alpha =
      ⟨alpha, fun _ _ => 0, 0, 1⟩ := by
  rw [update_phi, show gammaMaximumIteration = 99 + 1 from rfl, update_phi_loop_succ]
  have hg : gamma_update expBeta expPsi alpha ([] : List (Fin V × ℕ)) alpha = alpha := by
    funext k
    simp [gamma_update]
  rw [hg]
  rw [if_pos (Or.inl (by simp [gammaConvergeThreshold]))]
  rfl

/-- Claim C10: the M-step is idempotent — applied twice to the same state
(the `phi` table unchanged in between, as no E-step intervenes) it yields the
same `beta` as applied once.  CONFIRMED: the M-step reads only the `phi`
table, which it never writes. -/
theorem c10_m_step_idempotent {V K : ℕ} (S : MStepState V K) :
    m_step_state (m_step_state S) = m_step_state S := rfl
